import Mathlib

/-!
Verification of the tag-encoding/decoding engine of the productivity-tracking
modules (tasks, kanban boards, workflow trackers).

The three modules under verification are `nips/nipxxa.rs` (tasks),
`nips/nipxxc.rs` (kanban workflows) and `nips/nipxxe.rs` (trackers).
The generic event/tag container, the event builder and the primitive parsers
(URL, timestamp, public key, coordinate) are external collaborators of the
core; they are modelled from the specification of the external interfaces.
-/

set_option autoImplicit false

namespace Nostr

/-! ## External primitives, modelled from the spec -/

/-- Modelled from the spec: a public-key identity, parsed from a hex string.
The model keeps the canonical 64-character lowercase hex form. The real
parser additionally checks curve membership, which is outside the core. -/
structure PublicKey where
  hex : String
  deriving DecidableEq, Repr

/-- Modelled from the spec: hex character test used by the public-key parser. -/
def isHexChar (c : Char) : Bool :=
  c.isDigit || (('a' ≤ c) && (c ≤ 'f'))

/-- Modelled from the spec: public-key-identity parse from a hex string
(external primitive adapter). Succeeds exactly on 64 hex characters. -/
def PublicKey.fromHex (s : String) : Option PublicKey :=
  if s.length = 64 && s.data.all isHexChar then some ⟨s⟩ else none

/-- Modelled from the spec: a URL value; the model keeps the raw string. -/
structure Url where
  url : String
  deriving DecidableEq, Repr

/-- Modelled from the spec: URL parse (external primitive adapter). The model
accepts the web schemes followed by a nonempty remainder. -/
def Url.parse (s : String) : Option Url :=
  if ("http://".data.isPrefixOf s.data && s.length > 7)
      || ("https://".data.isPrefixOf s.data && s.length > 8) then
    some ⟨s⟩
  else none

/-- Modelled from the spec: the numeric value of a decimal digit string. -/
def digitsToNat (cs : List Char) : Nat :=
  cs.foldl (fun n c => n * 10 + (c.toNat - 48)) 0

/-- Modelled from the spec: unsigned 64-bit timestamp parse (seconds since
epoch). Timestamps are modelled as natural numbers below 2 ^ 64. -/
def parseU64 (s : String) : Option Nat :=
  if s.data ≠ [] && s.data.all Char.isDigit then
    if digitsToNat s.data < 2 ^ 64 then some (digitsToNat s.data) else none
  else none

/-- Modelled from the spec: a coordinate, a compact reference naming another
protocol object by kind, author and identifier. The model keeps the raw
reference string. -/
structure Coordinate where
  raw : String
  deriving DecidableEq, Repr

/-- Modelled from the spec: generic coordinate parse from a compact reference
string of the form kind, author key and identifier separated by colons. -/
def Coordinate.from_str (s : String) : Option Coordinate :=
  match s.data.splitOn ':' with
  | [k, p, _] =>
    if k ≠ [] && k.all Char.isDigit && (PublicKey.fromHex ⟨p⟩).isSome then
      some ⟨s⟩
    else none
  | _ => none

/-- Modelled from the spec: a tag is a kind label plus an ordered list of
string values. -/
structure Tag where
  kind : String
  rest : List String
  deriving DecidableEq, Repr

/-- Modelled from the spec: the first positional value after the kind marker,
or absence. -/
def Tag.content (t : Tag) : Option String :=
  t.rest.head?

/-- Modelled from the spec: the full positional value list of a tag, with the
kind marker first. -/
def Tag.toVec (t : Tag) : List String :=
  t.kind :: t.rest

/-- Modelled from the spec: construct a tag from a custom kind and values. -/
def Tag.custom (kind : String) (values : List String) : Tag :=
  ⟨kind, values⟩

/-- Modelled from the spec: a hashtag tag with kind t. -/
def Tag.hashtag (s : String) : Tag :=
  ⟨"t", [s]⟩

/-- Modelled from the spec: a bare public-key reference tag with kind p. -/
def Tag.publicKey (pk : PublicKey) : Tag :=
  ⟨"p", [pk.hex]⟩

/-- Kind number of task events; the source documents tasks as kind 35001. -/
def kindTask : Nat := 35001

/-- Kind number of kanban board events; the source documents kind 35002. -/
def kindKanbanBoard : Nat := 35002

/-- Modelled from the spec: the kind number of tracker events. The exact
number is defined outside the core; any value distinct from the other kinds
is faithful. -/
def kindTracker : Nat := 35003

/-- Modelled from the spec: an event carries a kind, a free-text content
body, an ordered list of tags and an author identity. -/
structure Event where
  kind : Nat
  content : String
  tags : List Tag
  pubkey : PublicKey
  deriving DecidableEq, Repr

/-- Modelled from the spec: an event builder constructed from a kind and a
content body, to which tags can be attached. -/
structure EventBuilder where
  kind : Nat
  content : String
  tags : List Tag
  deriving DecidableEq, Repr

/-- Modelled from the spec: construct-from kind and content. -/
def EventBuilder.new (kind : Nat) (content : String) : EventBuilder :=
  ⟨kind, content, []⟩

/-- Modelled from the spec: attach tags to a buildable event. -/
def EventBuilder.withTags (b : EventBuilder) (ts : List Tag) : EventBuilder :=
  { b with tags := b.tags ++ ts }

/-- Modelled from the spec: signing is a separate external capability; it
turns a buildable event into an event authored by the signing identity. -/
def EventBuilder.signWith (b : EventBuilder) (author : PublicKey) : Event :=
  ⟨b.kind, b.content, b.tags, author⟩

/-! ## nipxxa: tasks -/

/-- User roles in a Task, from `TaskUserRole` in nipxxa. -/
inductive TaskUserRole where
  | None
  | Assignee
  | Client
  | Custom (role : String)
  deriving DecidableEq, Repr

/-- TaskUserRole.to_string from nipxxa: absence for the None variant, a
string for all other variants. -/
def TaskUserRole.to_string : TaskUserRole → Option String
  | .None => none
  | .Assignee => some "assignee"
  | .Client => some "client"
  | .Custom role => some role

/-- The conversion From Option String for TaskUserRole in nipxxa. -/
def TaskUserRole.ofOptionString (role : Option String) : TaskUserRole :=
  match role with
  | none => .None
  | some role =>
    if role = "assignee" then .Assignee
    else if role = "client" then .Client
    else if role = "" then .None
    else .Custom role

/-- TaskMetadata from nipxxa: the tags metadata around a task-like object. -/
structure TaskMetadata where
  title : Option String
  image : Option Url
  published_at : Option Nat
  due_at : Option Nat
  archived : Option Bool
  tags : List String
  users : List (PublicKey × TaskUserRole)
  deriving DecidableEq, Repr

/-- TaskMetadata.new from nipxxa: a new empty object. -/
def TaskMetadata.new : TaskMetadata :=
  ⟨none, none, none, none, none, [], []⟩

/-- The conversion Into Tags for TaskMetadata in nipxxa: emit tags in fixed
field order, the archived tag only when the flag is true, a bare reference
for users whose role string is empty. -/
def TaskMetadata.intoTags (m : TaskMetadata) : List Tag :=
  (match m.title with
   | some title => [Tag.custom "title" [title]]
   | none => [])
  ++ (match m.image with
      | some image => [Tag.custom "image" [image.url]]
      | none => [])
  ++ (match m.published_at with
      | some ts => [Tag.custom "published_at" [toString ts]]
      | none => [])
  ++ (match m.due_at with
      | some ts => [Tag.custom "due_at" [toString ts]]
      | none => [])
  ++ (match m.archived with
      | some true => [Tag.custom "archived" ["true"]]
      | _ => [])
  ++ m.tags.map Tag.hashtag
  ++ m.users.map (fun u =>
      match (TaskUserRole.to_string u.2).getD "" with
      | "" => Tag.publicKey u.1
      | roleStr => Tag.custom "p" [u.1.hex, roleStr])

/-- Error type for Task parsing, from `TaskError` in nipxxa. -/
inductive TaskError where
  | WrongKind (kind : Nat)
  | MissingIdentifier
  | MissingContent
  | InvalidUrl (url : String)
  | InvalidTimestamp (timestamp : String)
  deriving DecidableEq, Repr

/-- One iteration of the tag loop of the conversion TryFrom Tags for
TaskMetadata in nipxxa: dispatch on the tag kind, accumulate into the
metadata, or fail on a malformed image URL or timestamp. -/
def stepTag (m : TaskMetadata) (t : Tag) : Except TaskError TaskMetadata :=
  if t.kind = "title" then
    .ok (match t.content with
         | some title => { m with title := some title }
         | none => m)
  else if t.kind = "image" then
    match t.content with
    | some imageUrl =>
      match Url.parse imageUrl with
      | some u => .ok { m with image := some u }
      | none => .error (.InvalidUrl imageUrl)
    | none => .ok m
  else if t.kind = "published_at" then
    match t.content with
    | some tsStr =>
      match parseU64 tsStr with
      | some ts => .ok { m with published_at := some ts }
      | none => .error (.InvalidTimestamp tsStr)
    | none => .ok m
  else if t.kind = "due_at" then
    match t.content with
    | some tsStr =>
      match parseU64 tsStr with
      | some ts => .ok { m with due_at := some ts }
      | none => .error (.InvalidTimestamp tsStr)
    | none => .ok m
  else if t.kind = "archived" then
    .ok { m with archived := some true }
  else if t.kind = "t" then
    .ok (match t.content with
         | some hashtag => { m with tags := m.tags ++ [hashtag] }
         | none => m)
  else if t.kind = "p" then
    .ok (match t.content with
         | some pkStr =>
           match PublicKey.fromHex pkStr with
           | some pk =>
             { m with users := m.users ++ [(pk, TaskUserRole.ofOptionString t.toVec[2]?)] }
           | none => m
         | none => m)
  else
    .ok m

/-- The tag loop of the conversion TryFrom Tags for TaskMetadata: fold the
step over the tag list, stopping at the first error. -/
def tryFromTagsAux (m : TaskMetadata) : List Tag → Except TaskError TaskMetadata
  | [] => .ok m
  | t :: ts =>
    match stepTag m t with
    | .ok m2 => tryFromTagsAux m2 ts
    | .error e => .error e

/-- The conversion TryFrom Tags for TaskMetadata in nipxxa. -/
def TaskMetadata.tryFrom (ts : List Tag) : Except TaskError TaskMetadata :=
  tryFromTagsAux TaskMetadata.new ts

/-- Task from nipxxa: identifier, description and metadata. -/
structure Task where
  id : String
  description : String
  metadata : TaskMetadata
  deriving DecidableEq, Repr

/-- Error type of the event builder, from the builder error used by
Task.to_event_builder; the empty-identifier failure is the NIP01 invalid
coordinate error. -/
inductive BuilderError where
  | nip01InvalidCoordinate
  deriving DecidableEq, Repr

/-- Task.to_event_builder from nipxxa: reject an empty identifier, then
build an event request from the task kind, the description and the
metadata tags. -/
def Task.to_event_builder (task : Task) : Except BuilderError EventBuilder :=
  if task.id = "" then
    .error .nip01InvalidCoordinate
  else
    .ok ((EventBuilder.new kindTask task.description).withTags task.metadata.intoTags)

/-- The conversion TryFrom Event for Task in nipxxa: verify the kind, get
the identifier from the first d tag carrying content, then decode the
metadata from the full tag list. -/
def Task.tryFrom (event : Event) : Except TaskError Task :=
  if event.kind ≠ kindTask then
    .error (.WrongKind event.kind)
  else
    match event.tags.findSome? (fun t => if t.kind = "d" then t.content else none) with
    | none => .error .MissingIdentifier
    | some id =>
      match TaskMetadata.tryFrom event.tags with
      | .ok md => .ok ⟨id, event.content, md⟩
      | .error e => .error e

/-! ## nipxxc: kanban workflows -/

/-- Color from nipxxc: eight named presets plus a custom hex variant. -/
inductive Color where
  | Red
  | Orange
  | Yellow
  | Green
  | Cyan
  | Blue
  | Purple
  | Gray
  | Hex (hex : String)
  deriving DecidableEq, Repr

/-- Modelled from the spec: the external lowercase conversion applied by the
color parser, modelled for the ASCII letters. -/
def charLower (c : Char) : Char :=
  if 'A' ≤ c && c ≤ 'Z' then Char.ofNat (c.toNat + 32) else c

/-- Modelled from the spec: lowercase form of a string, ASCII letters only. -/
def strLower (s : String) : String :=
  ⟨s.data.map charLower⟩

/-- Color.from_str from nipxxc: case-insensitive match against the preset
names; otherwise a value beginning with the hash character becomes Hex with
its original casing; anything else yields no color. -/
def Color.from_str (color : String) : Option Color :=
  let lower := strLower color
  if lower = "red" then some .Red
  else if lower = "orange" then some .Orange
  else if lower = "yellow" then some .Yellow
  else if lower = "green" then some .Green
  else if lower = "cyan" then some .Cyan
  else if lower = "blue" then some .Blue
  else if lower = "purple" then some .Purple
  else if lower = "gray" then some .Gray
  else if color.data.head? = some '#' then some (.Hex color)
  else none

/-- Color.to_string from nipxxc: the exact preset name, or the stored hex
string unchanged. -/
def Color.to_string : Color → String
  | .Red => "red"
  | .Orange => "orange"
  | .Yellow => "yellow"
  | .Green => "green"
  | .Cyan => "cyan"
  | .Blue => "blue"
  | .Purple => "purple"
  | .Gray => "gray"
  | .Hex hex => hex

/-- KanbanColumnDefinition from nipxxc: one column of a kanban board. -/
structure KanbanColumnDefinition where
  id : String
  label : String
  color : Option Color
  deriving DecidableEq, Repr

/-- The conversion TryFrom Tag for KanbanColumnDefinition in nipxxc: the tag
kind must be the column marker col; the content is the column id, the second
positional value the label, the third an optional color. -/
def KanbanColumnDefinition.tryFrom (t : Tag) : Except String KanbanColumnDefinition :=
  if t.kind = "col" then
    match t.content with
    | none => .error "missing tag content"
    | some tagContent =>
      match t.toVec[2]? with
      | none => .error "No label"
      | some label => .ok ⟨tagContent, label, t.toVec[3]?.bind Color.from_str⟩
  else
    .error "not color tag"

/-- KanbanBoard from nipxxc. -/
structure KanbanBoard where
  id : String
  title : Option String
  description : Option String
  alt : Option String
  columns : List KanbanColumnDefinition
  pubkey : List PublicKey
  deriving DecidableEq, Repr

/-- The column collection of the kanban decode: decode every column tag,
stopping at the first malformed one, as the collect over Results does in the
source. -/
def collectColumns : List Tag → Except String (List KanbanColumnDefinition)
  | [] => .ok []
  | t :: ts =>
    match KanbanColumnDefinition.tryFrom t with
    | .error e => .error e
    | .ok c =>
      match collectColumns ts with
      | .error e => .error e
      | .ok cs => .ok (c :: cs)

/-- The conversion TryFrom Event for KanbanBoard in nipxxc: verify the kind,
require the identifier, read the optional title, description and alt tags,
decode every col tag strictly, require at least one column, and collect the
maintainers from the parseable p references with the author as fallback. -/
def KanbanBoard.tryFrom (event : Event) : Except String KanbanBoard :=
  if event.kind ≠ kindKanbanBoard then
    .error "Event is not a kanban board (kind 35002)"
  else
    match (event.tags.find? (fun t => t.kind == "d")).bind Tag.content with
    | none => .error "Missing required 'd' tag for board identifier"
    | some id =>
      let title := (event.tags.find? (fun t => t.kind == "title")).bind Tag.content
      let description := (event.tags.find? (fun t => t.kind == "description")).bind Tag.content
      let alt := (event.tags.find? (fun t => t.kind == "alt")).bind Tag.content
      match collectColumns (event.tags.filter (fun t => t.kind == "col")) with
      | .error e => .error e
      | .ok columns =>
        if columns = [] then
          .error "Kanban board must have at least one column"
        else
          let pubkey :=
            ((event.tags.filter (fun t => t.kind == "p")).filterMap Tag.content).filterMap
              PublicKey.fromHex
          .ok ⟨id, title, description, alt, columns,
               if pubkey = [] then [event.pubkey] else pubkey⟩

/-! ## nipxxe: workflow trackers -/

/-- CoordinateLabel from nipxxe: the semantic label of a reference tag. -/
inductive CoordinateLabel where
  | None
  | TrackedItem
  | Workflow
  | Custom (s : String)
  deriving DecidableEq, Repr

/-- CoordinateLabel.from_str from nipxxe: the two recognized literals map to
their variants, everything else becomes Custom; the conversion never fails. -/
def CoordinateLabel.from_str (s : String) : CoordinateLabel :=
  if s = "tracked_item" then .TrackedItem
  else if s = "workflow" then .Workflow
  else .Custom s

/-- LabelledCoordinate from nipxxe: one reference tag decoded into a
coordinate plus a semantic label. -/
structure LabelledCoordinate where
  coordinate : Coordinate
  label : CoordinateLabel
  deriving DecidableEq, Repr

/-- TrackerError from nipxxe. -/
inductive TrackerError where
  | WrongKind (kind : Nat)
  | MissingTag (tag : String)
  | MissingIdentifier
  | InvalidATag
  | MissingTrackedItem
  | MissingWorkflow
  | InvalidUrl (url : String)
  | InvalidTimestamp
  | CannotGetWorkflowSpecificData
  | DuplicateTag (tag : String)
  | InvalidTagFormat (tag : String)
  deriving DecidableEq, Repr

/-- parse_a_tag from nipxxe: a reference tag needs at least two positional
values; the second parses as a coordinate, the third, when present, is the
label string. -/
def parse_a_tag (t : Tag) : Except TrackerError LabelledCoordinate :=
  let v := t.toVec
  match v[1]? with
  | none => .error .InvalidATag
  | some coordStr =>
    match Coordinate.from_str coordStr with
    | none => .error .InvalidATag
    | some coordinate =>
      .ok ⟨coordinate,
           match v[2]? with
           | some label => CoordinateLabel.from_str label
           | none => .None⟩

/-- The reference scan loop of the tracker decode in nipxxe: walk the tags
in order and return the coordinate of the first tag that parses as a
labelled reference with the wanted label; malformed tags are passed over. -/
def findLabelled (l : CoordinateLabel) : List Tag → Option Coordinate
  | [] => none
  | t :: ts =>
    match parse_a_tag t with
    | .ok lc => if lc.label = l then some lc.coordinate else findLabelled l ts
    | .error _ => findLabelled l ts

/-- Modelled from the spec: the external tag container lookup
find_standardized on the identifier kind returns the structurally
standardized identifier form of the first d tag; absence or a malformed
d tag gives nothing. -/
def findStandardizedIdentifier (ts : List Tag) : Option String :=
  (ts.find? (fun t => t.kind == "d")).bind Tag.content

/-- Tracker from nipxxe, generic over the workflow-specific payload. -/
structure Tracker (W : Type) where
  id : String
  tracked_item : Coordinate
  workflow : Coordinate
  workflow_specific_data : W

/-- The conversion TryFrom Event for Tracker in nipxxe: verify the kind,
require a standardized identifier, scan for the first tracked-item labelled
reference and independently for the first workflow labelled reference, then
build the payload from the whole event, wrapping its failure opaquely. The
pluggable payload conversion is passed as a function with its error erased. -/
def Tracker.tryFrom {W : Type} (tryFromW : Event → Option W) (event : Event) :
    Except TrackerError (Tracker W) :=
  if event.kind ≠ kindTracker then
    .error (.WrongKind event.kind)
  else
    match findStandardizedIdentifier event.tags with
    | none => .error .MissingIdentifier
    | some id =>
      match findLabelled .TrackedItem event.tags with
      | none => .error .MissingTrackedItem
      | some tracked_item =>
        match findLabelled .Workflow event.tags with
        | none => .error .MissingWorkflow
        | some workflow =>
          match tryFromW event with
          | none => .error .CannotGetWorkflowSpecificData
          | some w => .ok ⟨id, tracked_item, workflow, w⟩

/-! ## Specification-side reformulations -/

/-- The first tag of a list, in tag order, that parses as a labelled
reference carrying the wanted label, expressed through the list search
primitive; the coordinate of that tag is returned. -/
def firstLabelledRef (l : CoordinateLabel) (ts : List Tag) : Option Coordinate :=
  (ts.find? (fun t =>
    match parse_a_tag t with
    | .ok lc => decide (lc.label = l)
    | .error _ => false)).bind (fun t =>
      match parse_a_tag t with
      | .ok lc => some lc.coordinate
      | .error _ => none)

/-- The reference scan loop of the tracker decode computes exactly the first
labelled reference in tag order. -/
theorem findLabelled_eq_firstLabelledRef (l : CoordinateLabel) :
    ∀ ts : List Tag, findLabelled l ts = firstLabelledRef l ts
  | [] => rfl
  | t :: ts => by
      have ih := findLabelled_eq_firstLabelledRef l ts
      rw [findLabelled, firstLabelledRef, List.find?]
      cases hpt : parse_a_tag t with
      | error e => simpa [hpt, firstLabelledRef] using ih
      | ok lc =>
        by_cases hl : lc.label = l
        · simp [hpt, hl]
        · simpa [hpt, hl, firstLabelledRef] using ih

/-- The maintainers a kanban event declares: the validly parseable public
keys of its p reference tags, in tag order. -/
def validMaintainers (ts : List Tag) : List PublicKey :=
  ts.filterMap (fun t =>
    if t.kind = "p" then t.content.bind PublicKey.fromHex else none)

/-- The maintainer collection of the kanban decode equals the single-pass
formulation. -/
theorem maintainers_chain_eq :
    ∀ ts : List Tag,
      ((ts.filter (fun t => t.kind == "p")).filterMap Tag.content).filterMap
        PublicKey.fromHex = validMaintainers ts
  | [] => rfl
  | t :: ts => by
      have ih := maintainers_chain_eq ts
      by_cases hp : t.kind = "p"
      · cases hc : t.content with
        | none =>
          simp [List.filter_cons, List.filterMap_cons, validMaintainers,
            hp, hc, ih]
        | some s =>
          cases hpk : PublicKey.fromHex s with
          | none =>
            simp [List.filter_cons, List.filterMap_cons, validMaintainers,
              hp, hc, hpk, ih]
          | some pk =>
            simp [List.filter_cons, List.filterMap_cons, validMaintainers,
              hp, hc, hpk, ih]
      · simp [List.filter_cons, List.filterMap_cons, validMaintainers, hp, ih]

/-- A member of the column tag list that fails the column decode forces the
whole column collection to fail. -/
theorem collectColumns_error_of_mem :
    ∀ (l : List Tag) (t : Tag), t ∈ l →
      ∀ msg, KanbanColumnDefinition.tryFrom t = .error msg →
        ∃ m, collectColumns l = .error m
  | [], t, ht, _, _ => absurd ht (List.not_mem_nil t)
  | a :: l, t, ht, msg, h => by
      rw [collectColumns]
      cases ha : KanbanColumnDefinition.tryFrom a with
      | error e => exact ⟨e, rfl⟩
      | ok c =>
        rcases List.mem_cons.mp ht with rfl | ht2
        · rw [ha] at h
          cases h
        · obtain ⟨m2, hm2⟩ := collectColumns_error_of_mem l t ht2 msg h
          exact ⟨m2, by simp [ha, hm2]⟩

/-! ## Concrete fixtures -/

/-- A 64 character hex string used as a concrete public key. -/
def pkHexA : String :=
  "aaaaaaaaaaaaaaaaaaaaaaaaaaaaaaaaaaaaaaaaaaaaaaaaaaaaaaaaaaaaaaaa"

/-- A concrete public key. -/
def pk0 : PublicKey := ⟨pkHexA⟩

/-- The concrete task of the encoding scenario: id T1, description d, title
X and the free-text tags a and b. -/
def task1 : Task :=
  ⟨"T1", "d", { TaskMetadata.new with title := some "X", tags := ["a", "b"] }⟩

/-- The event request actually produced by encoding the concrete task. -/
def taskBuilder1 : EventBuilder :=
  ⟨kindTask, "d", [Tag.custom "title" ["X"], Tag.hashtag "a", Tag.hashtag "b"]⟩

/-! ## Helper lemmas about the metadata tag loop -/

/-- The archived field after one step of the metadata tag loop: set to true
by an archived tag, untouched by every other tag. -/
theorem stepTag_archived (m : TaskMetadata) (t : Tag) (m2 : TaskMetadata)
    (h : stepTag m t = .ok m2) :
    m2.archived = if t.kind = "archived" then some true else m.archived := by
  unfold stepTag at h
  split_ifs at h with h1 h2 h3 h4 h5 h6 h7 <;>
    (repeat' split at h) <;> (try cases h) <;> simp_all

/-- The archived field after the whole metadata tag loop: true exactly when
it started true or some tag in the list has the archived kind. -/
theorem tryFromTagsAux_ok_archived :
    ∀ (ts : List Tag) (m m' : TaskMetadata), tryFromTagsAux m ts = .ok m' →
      (m'.archived = some true ↔
        m.archived = some true ∨ ∃ t ∈ ts, t.kind = "archived")
  | [], m, m', h => by
      simp only [tryFromTagsAux] at h
      cases h
      simp
  | t :: ts, m, m', h => by
      rw [tryFromTagsAux] at h
      cases hst : stepTag m t with
      | error e => rw [hst] at h; cases h
      | ok m2 =>
        rw [hst] at h
        have ih := tryFromTagsAux_ok_archived ts m2 m' h
        have ha := stepTag_archived m t m2 hst
        by_cases hk : t.kind = "archived" <;>
          simp [hk] at ha <;> rw [ih, ha] <;> simp [hk]

/-- The archived field after the metadata tag loop is either true or its
starting value; it is never set to false. -/
theorem tryFromTagsAux_ok_archived_cases :
    ∀ (ts : List Tag) (m m' : TaskMetadata), tryFromTagsAux m ts = .ok m' →
      m'.archived = some true ∨ m'.archived = m.archived
  | [], m, m', h => by
      simp only [tryFromTagsAux] at h
      cases h
      exact Or.inr rfl
  | t :: ts, m, m', h => by
      rw [tryFromTagsAux] at h
      cases hst : stepTag m t with
      | error e => rw [hst] at h; cases h
      | ok m2 =>
        rw [hst] at h
        have ih := tryFromTagsAux_ok_archived_cases ts m2 m' h
        have ha := stepTag_archived m t m2 hst
        by_cases hk : t.kind = "archived" <;> simp [hk] at ha <;>
          rcases ih with ih | ih <;> simp_all

/-- The tag kinds recognized by the metadata decoder. -/
def recognizedKinds : List String :=
  ["title", "image", "published_at", "due_at", "archived", "t", "p"]

/-- A tag the metadata decoder silently passes over: an unrecognized kind, or
a p reference whose identity payload does not parse as a public key. -/
def SkippableTag (u : Tag) : Prop :=
  u.kind ∉ recognizedKinds ∨
    (u.kind = "p" ∧ ∀ s, u.content = some s → PublicKey.fromHex s = none)

/-- One step of the metadata tag loop leaves the state unchanged on a
skippable tag. -/
theorem stepTag_skippable (m : TaskMetadata) (u : Tag) (h : SkippableTag u) :
    stepTag m u = .ok m := by
  rcases h with h | ⟨hp, hun⟩
  · simp only [recognizedKinds, List.mem_cons, List.not_mem_nil, or_false,
      not_or] at h
    obtain ⟨n1, n2, n3, n4, n5, n6, n7⟩ := h
    simp [stepTag, n1, n2, n3, n4, n5, n6, n7]
  · cases hc : u.content with
    | none => simp [stepTag, hp, hc]
    | some s => simp [stepTag, hp, hc, hun s hc]

/-- Inserting a skippable tag anywhere in the tag list does not change the
outcome of the metadata tag loop. -/
theorem tryFromTagsAux_middle_skip :
    ∀ (L1 L2 : List Tag) (u : Tag), SkippableTag u →
      ∀ m : TaskMetadata,
        tryFromTagsAux m (L1 ++ u :: L2) = tryFromTagsAux m (L1 ++ L2)
  | [], L2, u, h, m => by
      simp only [List.nil_append, tryFromTagsAux, stepTag_skippable m u h]
  | t :: L1, L2, u, h, m => by
      simp only [List.cons_append, tryFromTagsAux]
      cases hst : stepTag m t with
      | ok m2 => exact tryFromTagsAux_middle_skip L1 L2 u h m2
      | error e => rfl

/-- One step of the metadata tag loop can only fail with an invalid URL or
an invalid timestamp. -/
theorem stepTag_error_shape (m : TaskMetadata) (t : Tag) (e : TaskError)
    (h : stepTag m t = .error e) :
    (∃ s, e = .InvalidUrl s) ∨ (∃ s, e = .InvalidTimestamp s) := by
  unfold stepTag at h
  split_ifs at h <;> (repeat' split at h) <;> (try cases h) <;> simp_all

/-- The metadata tag loop can only fail with an invalid URL or an invalid
timestamp. -/
theorem tryFromTagsAux_error_shape :
    ∀ (ts : List Tag) (m : TaskMetadata) (e : TaskError),
      tryFromTagsAux m ts = .error e →
      (∃ s, e = .InvalidUrl s) ∨ (∃ s, e = .InvalidTimestamp s)
  | [], m, e, h => by simp [tryFromTagsAux] at h
  | t :: ts, m, e, h => by
      rw [tryFromTagsAux] at h
      cases hst : stepTag m t with
      | ok m2 => rw [hst] at h; exact tryFromTagsAux_error_shape ts m2 e h
      | error e2 =>
        rw [hst] at h
        cases h
        exact stepTag_error_shape m t _ hst

/-! ## Claim theorems -/

/-- Claim C1: decoding the event produced by encoding a valid Task was
claimed to return the task unchanged. The encoder drops the identifier: it
checks that the id is nonempty but never emits a d tag, so the decoder fails
with MissingIdentifier on the encoded event. This theorem evaluates the code
at the failing input. -/
theorem task_encode_decode_drops_identifier :
    Task.to_event_builder task1 = .ok taskBuilder1 ∧
    Task.tryFrom (taskBuilder1.signWith pk0) = .error .MissingIdentifier :=
  ⟨rfl, rfl⟩

/-- Claim C2: encoding the concrete task was claimed to yield the tag list
with the identifier tag first. The builder produced by the code has the
correct kind, content and metadata tags in order, but no identifier tag at
all; the empty-id case does fail with the invalid-coordinate builder error.
This theorem evaluates the code at the failing input. -/
theorem task_to_event_builder_concrete :
    Task.to_event_builder task1 =
      .ok ⟨kindTask, "d", [Tag.custom "title" ["X"], Tag.hashtag "a", Tag.hashtag "b"]⟩ ∧
    (taskBuilder1.tags.all (fun t => t.kind != "d")) = true ∧
    Task.to_event_builder ⟨"", "x", TaskMetadata.new⟩ = .error .nip01InvalidCoordinate :=
  ⟨rfl, rfl, rfl⟩

/-- Claim C7: the TaskUserRole string mapping is total and round-trips:
absence and the empty string decode to the None variant, the two recognized
literals decode to their variants, any other nonempty string becomes Custom,
and the serialization is a partial inverse on the stated domain. -/
theorem task_user_role_mapping (s : String)
    (h1 : s ≠ "") (h2 : s ≠ "assignee") (h3 : s ≠ "client") :
    TaskUserRole.ofOptionString none = .None ∧
    TaskUserRole.ofOptionString (some "") = .None ∧
    TaskUserRole.ofOptionString (some "assignee") = .Assignee ∧
    TaskUserRole.ofOptionString (some "client") = .Client ∧
    TaskUserRole.ofOptionString (some s) = .Custom s ∧
    TaskUserRole.to_string .None = none ∧
    TaskUserRole.to_string .Assignee = some "assignee" ∧
    TaskUserRole.to_string .Client = some "client" ∧
    TaskUserRole.to_string (.Custom s) = some s ∧
    TaskUserRole.ofOptionString (TaskUserRole.to_string .Assignee) = .Assignee ∧
    TaskUserRole.ofOptionString (TaskUserRole.to_string .Client) = .Client ∧
    TaskUserRole.ofOptionString (TaskUserRole.to_string (.Custom s)) = .Custom s := by
  refine ⟨rfl, rfl, rfl, rfl, ?_, rfl, rfl, rfl, rfl, rfl, rfl, ?_⟩ <;>
    simp [TaskUserRole.ofOptionString, TaskUserRole.to_string, h1, h2, h3]

/-- Witness for claim C7 at the concrete custom role boss. -/
theorem task_user_role_mapping_witness :
    TaskUserRole.ofOptionString (TaskUserRole.to_string (.Custom "boss")) = .Custom "boss" :=
  (task_user_role_mapping "boss" (by decide) (by decide) (by decide)).2.2.2.2.2.2.2.2.2.2.2

/-- Claim C3: on a tracker event with a valid identifier and a succeeding
payload conversion, the decode selects the coordinate of the first tag in
tag order whose resolved label is the tracked item, independently the first
whose resolved label is the workflow, fails with the respective
missing-reference error when either is absent, and passes over malformed
reference tags. -/
theorem tracker_selects_first_labelled {W : Type} (dW : Event → Option W)
    (e : Event) (i : String) (w : W)
    (hk : e.kind = kindTracker)
    (hid : findStandardizedIdentifier e.tags = some i)
    (hw : dW e = some w) :
    Tracker.tryFrom dW e =
      match firstLabelledRef .TrackedItem e.tags with
      | none => .error .MissingTrackedItem
      | some ti =>
        match firstLabelledRef .Workflow e.tags with
        | none => .error .MissingWorkflow
        | some wf => .ok ⟨i, ti, wf, w⟩ := by
  unfold Tracker.tryFrom
  rw [← findLabelled_eq_firstLabelledRef CoordinateLabel.TrackedItem e.tags,
    ← findLabelled_eq_firstLabelledRef CoordinateLabel.Workflow e.tags,
    if_neg (by simp [hk]), hid]
  cases findLabelled .TrackedItem e.tags <;>
    cases findLabelled .Workflow e.tags <;> simp [hw]

/-- A concrete tracker event: an identifier tag, a malformed reference tag,
then references labelled workflow, tracked item and tracked item, in that
order. -/
def trackerEvent3 : Event :=
  ⟨kindTracker, "",
   [⟨"d", ["trk1"]⟩,
    ⟨"a", ["garbage"]⟩,
    ⟨"a", ["30617:aaaaaaaaaaaaaaaaaaaaaaaaaaaaaaaaaaaaaaaaaaaaaaaaaaaaaaaaaaaaaaaa:wf1",
           "workflow"]⟩,
    ⟨"a", ["35001:aaaaaaaaaaaaaaaaaaaaaaaaaaaaaaaaaaaaaaaaaaaaaaaaaaaaaaaaaaaaaaaa:t1",
           "tracked_item"]⟩,
    ⟨"a", ["35001:aaaaaaaaaaaaaaaaaaaaaaaaaaaaaaaaaaaaaaaaaaaaaaaaaaaaaaaaaaaaaaaa:t2",
           "tracked_item"]⟩],
   ⟨"aaaaaaaaaaaaaaaaaaaaaaaaaaaaaaaaaaaaaaaaaaaaaaaaaaaaaaaaaaaaaaaa"⟩⟩

/-- Witness for claim C3: on the concrete event the decode returns the first
tracked-item labelled coordinate, not the last, and the malformed reference
tag before it does not fail the decode. -/
theorem tracker_selects_first_labelled_witness :
    trackerEvent3.kind = kindTracker ∧
    findStandardizedIdentifier trackerEvent3.tags = some "trk1" ∧
    Tracker.tryFrom (fun _ => some ()) trackerEvent3 =
      .ok ⟨"trk1",
           ⟨"35001:aaaaaaaaaaaaaaaaaaaaaaaaaaaaaaaaaaaaaaaaaaaaaaaaaaaaaaaaaaaaaaaa:t1"⟩,
           ⟨"30617:aaaaaaaaaaaaaaaaaaaaaaaaaaaaaaaaaaaaaaaaaaaaaaaaaaaaaaaaaaaaaaaa:wf1"⟩,
           ()⟩ :=
  ⟨rfl, rfl,
   (tracker_selects_first_labelled (fun _ => some ()) trackerEvent3 "trk1" ()
      rfl rfl rfl).trans (by rfl)⟩

/-- A concrete kanban event whose only column tag is missing its label. -/
def kanbanBadColEvent : Event :=
  ⟨kindKanbanBoard, "", [⟨"d", ["b1"]⟩, ⟨"col", ["x"]⟩], pk0⟩

/-- Claim C4 counterexample: on a kanban event whose single column tag is
malformed, zero columns decode successfully, yet the decode fails with the
No-label column error, not with the minimum-column error the claim names. -/
theorem kanban_zero_columns_error_mismatch :
    KanbanColumnDefinition.tryFrom ⟨"col", ["x"]⟩ = .error "No label" ∧
    KanbanBoard.tryFrom kanbanBadColEvent = .error "No label" ∧
    ("No label" : String) ≠ "Kanban board must have at least one column" :=
  ⟨rfl, rfl, by decide⟩

/-- Claim C4 as amended: on a kanban event with an identifier, the decode
fails whenever any single column tag is malformed (no column is skipped),
and fails with the minimum-column error whenever the event carries no
column tags at all, regardless of the other tags present. -/
theorem kanban_column_failure_and_min_column (e : Event) (i : String)
    (hk : e.kind = kindKanbanBoard)
    (hid : (e.tags.find? (fun t => t.kind == "d")).bind Tag.content = some i) :
    ((∃ t ∈ e.tags, t.kind = "col" ∧
        ∃ msg, KanbanColumnDefinition.tryFrom t = .error msg) →
      ∃ msg, KanbanBoard.tryFrom e = .error msg) ∧
    (e.tags.filter (fun t => t.kind == "col") = [] →
      KanbanBoard.tryFrom e = .error "Kanban board must have at least one column") := by
  constructor
  · rintro ⟨t, ht, hcol, msg, herr⟩
    have htf : t ∈ e.tags.filter (fun t => t.kind == "col") := by
      simp [List.mem_filter, ht, hcol]
    obtain ⟨m2, hm2⟩ := collectColumns_error_of_mem _ t htf msg herr
    refine ⟨m2, ?_⟩
    unfold KanbanBoard.tryFrom
    rw [if_neg (by simp [hk]), hid, hm2]
  · intro hfil
    unfold KanbanBoard.tryFrom
    rw [if_neg (by simp [hk]), hid, hfil]
    rfl

/-- A concrete kanban event with an identifier, no column tags and assorted
other tags. -/
def kanbanNoColEvent : Event :=
  ⟨kindKanbanBoard, "", [⟨"d", ["b2"]⟩, ⟨"title", ["T"]⟩, ⟨"p", [pkHexA]⟩], pk0⟩

/-- Witness for claim C4 as amended, at a concrete event without column
tags. -/
theorem kanban_column_failure_and_min_column_witness :
    kanbanNoColEvent.kind = kindKanbanBoard ∧
    (kanbanNoColEvent.tags.find? (fun t => t.kind == "d")).bind Tag.content = some "b2" ∧
    KanbanBoard.tryFrom kanbanNoColEvent =
      .error "Kanban board must have at least one column" :=
  ⟨rfl, rfl,
   (kanban_column_failure_and_min_column kanbanNoColEvent "b2" rfl rfl).2 rfl⟩

/-- Claim C5: a successfully decoded kanban board has the author as sole
maintainer exactly when no p reference with a parseable key is present, and
otherwise exactly the parsed references in tag order, without the author
auto-appended; unparseable p references are silently skipped by the
single-pass collection. -/
theorem kanban_maintainers_fallback (e : Event) (b : KanbanBoard)
    (h : KanbanBoard.tryFrom e = .ok b) :
    (validMaintainers e.tags = [] → b.pubkey = [e.pubkey]) ∧
    (validMaintainers e.tags ≠ [] → b.pubkey = validMaintainers e.tags) := by
  simp only [KanbanBoard.tryFrom] at h
  split at h
  · cases h
  · split at h
    · cases h
    · split at h
      · cases h
      · split at h
        · cases h
        · cases h
          constructor <;> intro hv <;> simp [maintainers_chain_eq, hv]

/-- A concrete kanban event with one column, one unparseable p reference
and one parseable p reference, authored by a different key. -/
def kanbanBoardEvent5 : Event :=
  ⟨kindKanbanBoard, "",
   [⟨"d", ["b3"]⟩, ⟨"col", ["x", "X col"]⟩, ⟨"p", ["zz"]⟩, ⟨"p", [pkHexA]⟩],
   ⟨"bbbbbbbbbbbbbbbbbbbbbbbbbbbbbbbbbbbbbbbbbbbbbbbbbbbbbbbbbbbbbbbb"⟩⟩

/-- The board decoded from the concrete kanban event. -/
def kanbanBoard5 : KanbanBoard :=
  ⟨"b3", none, none, none, [⟨"x", "X col", none⟩], [pk0]⟩

/-- Witness for claim C5: the parseable key is kept in tag order, the
unparseable one is skipped and the author is not appended. -/
theorem kanban_maintainers_fallback_witness :
    KanbanBoard.tryFrom kanbanBoardEvent5 = .ok kanbanBoard5 ∧
    validMaintainers kanbanBoardEvent5.tags ≠ [] ∧
    kanbanBoard5.pubkey = validMaintainers kanbanBoardEvent5.tags :=
  ⟨rfl, by decide,
   (kanban_maintainers_fallback kanbanBoardEvent5 kanbanBoard5 rfl).2 (by decide)⟩

/-- Claim C6: encoding a metadata object whose archived flag is an explicit
false emits the same tag list as encoding it with no archived flag, and a
successfully decoded metadata object has archived true exactly when some
tag of archived kind is present, archived absent otherwise. -/
theorem archived_presence_semantics (m : TaskMetadata) (ts : List Tag)
    (m' : TaskMetadata) (h : TaskMetadata.tryFrom ts = .ok m') :
    TaskMetadata.intoTags { m with archived := some false } =
      TaskMetadata.intoTags { m with archived := none } ∧
    (m'.archived = some true ↔ ∃ t ∈ ts, t.kind = "archived") ∧
    (m'.archived = none ↔ ¬ ∃ t ∈ ts, t.kind = "archived") := by
  have h1 := tryFromTagsAux_ok_archived ts TaskMetadata.new m' h
  have h2 := tryFromTagsAux_ok_archived_cases ts TaskMetadata.new m' h
  simp only [TaskMetadata.new] at h1 h2
  have h1A : m'.archived = some true ↔ ∃ t ∈ ts, t.kind = "archived" := by
    simpa using h1
  refine ⟨rfl, h1A, ?_, ?_⟩
  · intro hn hex
    have := h1A.mpr hex
    rw [hn] at this
    cases this
  · intro hnex
    rcases h2 with h2 | h2
    · exact absurd (h1A.mp h2) hnex
    · simpa using h2

/-- The metadata object with only the title X set. -/
def metaTitleX : TaskMetadata := { TaskMetadata.new with title := some "X" }

/-- A tag list holding one archived tag with a false payload. -/
def archTags : List Tag := [⟨"archived", ["false"]⟩]

/-- The metadata object with only the archived flag set to true. -/
def metaArch : TaskMetadata := { TaskMetadata.new with archived := some true }

/-- Witness for claim C6: an archived tag whose payload is the string false
still decodes to archived true, and the encoder drops an explicit false. -/
theorem archived_presence_semantics_witness :
    TaskMetadata.tryFrom archTags = .ok metaArch ∧
    (TaskMetadata.intoTags { metaTitleX with archived := some false } =
       TaskMetadata.intoTags { metaTitleX with archived := none } ∧
     (metaArch.archived = some true ↔ ∃ t ∈ archTags, t.kind = "archived") ∧
     (metaArch.archived = none ↔ ¬ ∃ t ∈ archTags, t.kind = "archived")) :=
  ⟨rfl, archived_presence_semantics metaTitleX archTags metaArch rfl⟩

/-- Claim C8: decoding a tag list with a tag of unrecognized kind, or a p
reference whose identity payload does not parse, inserted at any position
yields the same metadata as decoding the list without it. -/
theorem metadata_skip_unrecognized (L1 L2 : List Tag) (u : Tag)
    (h : SkippableTag u) :
    TaskMetadata.tryFrom (L1 ++ u :: L2) = TaskMetadata.tryFrom (L1 ++ L2) :=
  tryFromTagsAux_middle_skip L1 L2 u h TaskMetadata.new

/-- Witness for claim C8 at a concrete unrecognized tag in the middle of a
concrete tag list. -/
theorem metadata_skip_unrecognized_witness :
    SkippableTag ⟨"foo", ["bar"]⟩ ∧
    TaskMetadata.tryFrom ([⟨"title", ["X"]⟩] ++ ⟨"foo", ["bar"]⟩ :: [⟨"t", ["a"]⟩]) =
      TaskMetadata.tryFrom ([⟨"title", ["X"]⟩] ++ [⟨"t", ["a"]⟩]) :=
  ⟨Or.inl (by decide),
   metadata_skip_unrecognized [⟨"title", ["X"]⟩] [⟨"t", ["a"]⟩] ⟨"foo", ["bar"]⟩
     (Or.inl (by decide))⟩

/-- Claim C10: the metadata decoder can only fail with an invalid URL or an
invalid timestamp; it never returns the wrong-kind, missing-identifier or
missing-content errors, and no decode in the module returns the
missing-content error, the task decoder included. -/
theorem metadata_error_taxonomy :
    (∀ (ts : List Tag) (e : TaskError), TaskMetadata.tryFrom ts = .error e →
      (∃ s, e = .InvalidUrl s) ∨ (∃ s, e = .InvalidTimestamp s)) ∧
    (∀ (ts : List Tag) (k : Nat),
      TaskMetadata.tryFrom ts ≠ .error (.WrongKind k)) ∧
    (∀ ts : List Tag, TaskMetadata.tryFrom ts ≠ .error .MissingIdentifier) ∧
    (∀ ts : List Tag, TaskMetadata.tryFrom ts ≠ .error .MissingContent) ∧
    (∀ ev : Event, Task.tryFrom ev ≠ .error .MissingContent) := by
  have base : ∀ (ts : List Tag) (e : TaskError),
      TaskMetadata.tryFrom ts = .error e →
      (∃ s, e = .InvalidUrl s) ∨ (∃ s, e = .InvalidTimestamp s) :=
    fun ts e h => tryFromTagsAux_error_shape ts TaskMetadata.new e h
  refine ⟨base, ?_, ?_, ?_, ?_⟩
  · intro ts k hk
    rcases base ts _ hk with ⟨s, hs⟩ | ⟨s, hs⟩ <;> cases hs
  · intro ts hk
    rcases base ts _ hk with ⟨s, hs⟩ | ⟨s, hs⟩ <;> cases hs
  · intro ts hk
    rcases base ts _ hk with ⟨s, hs⟩ | ⟨s, hs⟩ <;> cases hs
  · intro ev hme
    unfold Task.tryFrom at hme
    split_ifs at hme with hk
    · cases hme
    · split at hme
      · cases hme
      · split at hme
        · cases hme
        · rename_i e2 hmd
          cases hme
          rcases base ev.tags _ hmd with ⟨s, hs⟩ | ⟨s, hs⟩ <;> cases hs

/-- Witness for claim C10: a concrete tag list failing with an invalid URL,
whose error has the shape the claim allows. -/
theorem metadata_error_taxonomy_witness :
    TaskMetadata.tryFrom [⟨"image", ["bad"]⟩] = .error (.InvalidUrl "bad") ∧
    ((∃ s, TaskError.InvalidUrl "bad" = .InvalidUrl s) ∨
     (∃ s, TaskError.InvalidUrl "bad" = .InvalidTimestamp s)) :=
  ⟨rfl, metadata_error_taxonomy.1 [⟨"image", ["bad"]⟩] (.InvalidUrl "bad") rfl⟩

/-- Claim C9: the kanban column decode succeeds exactly on tags with the col
marker kind; the content is the column id, its absence the missing-content
error; the second positional value is the label, its absence the No-label
error; the third positional value is an optional color where an unparseable
or absent value yields no color and never an error. -/
theorem kanban_column_decode_cases (t : Tag) :
    (t.kind ≠ "col" → KanbanColumnDefinition.tryFrom t = .error "not color tag") ∧
    (t.kind = "col" → t.content = none →
      KanbanColumnDefinition.tryFrom t = .error "missing tag content") ∧
    (∀ c, t.kind = "col" → t.content = some c → t.toVec[2]? = none →
      KanbanColumnDefinition.tryFrom t = .error "No label") ∧
    (∀ c l, t.kind = "col" → t.content = some c → t.toVec[2]? = some l →
      KanbanColumnDefinition.tryFrom t = .ok ⟨c, l, t.toVec[3]?.bind Color.from_str⟩) := by
  refine ⟨?_, ?_, ?_, ?_⟩ <;> intros <;>
    simp [KanbanColumnDefinition.tryFrom, *]

/-- Witness for claim C9: a column tag with an absent color value decodes to
the column with no color and no error. -/
theorem kanban_column_decode_cases_witness :
    KanbanColumnDefinition.tryFrom ⟨"col", ["todo", "To do"]⟩ =
      .ok ⟨"todo", "To do", none⟩ :=
  ((kanban_column_decode_cases ⟨"col", ["todo", "To do"]⟩).2.2.2
    "todo" "To do" rfl rfl rfl).trans (by rfl)

end Nostr
